import Mathlib

/-!
Verification development for the EOS prediction core.

Shallow embedding of:
  * the generic prediction time-series store (`PredRecord`, `update_value`,
    `key_to_array`) — modelled from the spec, since the generic store module
    (`predictionabc.py` / `dataabc.py`) is not among the inspected sources;
  * the file-based TTL cache wrapper — modelled from the spec, since
    `cacheutil.py` is not among the inspected sources;
  * `PVForecastAkkudoktor` (`src/akkudoktoreos/prediction/pvforecastakkudoktor.py`):
    payload schema, `_validate_data` diagnostics, `_update_data` normalisation
    and merging;
  * `Wechselrichter.energie_verarbeiten`
    (`src/akkudoktoreos/devices/inverter.py`).

Python floats are modelled as rationals (`ℚ`); timezone-aware instants as
integers (epoch seconds).
-/

namespace EOS

/-! ## Generic prediction store (modelled from the spec)

`Modelled from the spec:` the generic `PredictionRecord` / `PredictionSequence`
module is not among the inspected sources; this section follows the spec's
words: a record is a timestamped bag of optional named numeric fields, a
sequence holds at most one record per instant, and `update_value` upserts:
overwriting only the named fields of an existing record, or creating a fresh
record holding only the given fields. -/

/-- A timestamped bag of optional named numeric fields.  An absent field means
unknown, not zero; the field bag is an association list keyed by field name. -/
structure PredRecord where
  date_time : Int
  fields : List (String × ℚ)
deriving Repr, DecidableEq

/-- Read a named field of a record's field bag (`none` = unknown). -/
def getField (fs : List (String × ℚ)) (k : String) : Option ℚ :=
  (fs.find? (fun p => p.1 = k)).map (fun p => p.2)

/-- Set one named field in a field bag, overwriting an existing binding and
appending a new one otherwise. -/
def setField (fs : List (String × ℚ)) (k : String) (v : ℚ) : List (String × ℚ) :=
  if fs.any (fun p => p.1 = k) then
    fs.map (fun p => if p.1 = k then (k, v) else p)
  else
    fs ++ [(k, v)]

/-- Set a whole mapping of fields, one after the other. -/
def setFields (fs : List (String × ℚ)) (data : List (String × ℚ)) : List (String × ℚ) :=
  data.foldl (fun acc p => setField acc p.1 p.2) fs

/-- Modelled from the spec: `update_value(datetime, mapping)` upserts: if a
record for that instant exists, only the named fields are overwritten and all
other fields on that record are preserved; if absent, a new record is created
with only the given fields set. -/
def update_value (seq : List PredRecord) (t : Int) (data : List (String × ℚ)) :
    List PredRecord :=
  if seq.any (fun r => r.date_time = t) then
    seq.map (fun r =>
      if r.date_time = t then { r with fields := setFields r.fields data } else r)
  else
    seq ++ [{ date_time := t, fields := setFields [] data }]

/-- A series of `update_value` calls applied in order. -/
def applyUpdates (seq : List PredRecord) (calls : List (Int × List (String × ℚ))) :
    List PredRecord :=
  calls.foldl (fun s c => update_value s c.1 c.2) seq

/-- The record stored for a given instant, if any. -/
def recordAt (seq : List PredRecord) (t : Int) : Option PredRecord :=
  seq.find? (fun r => r.date_time = t)

/-- The instants held by a sequence, in storage order. -/
def seqKeys (seq : List PredRecord) : List Int :=
  seq.map (fun r => r.date_time)

/-- The value of field `k` on the record stored at instant `t`, if any. -/
def fieldAt (seq : List PredRecord) (t : Int) (k : String) : Option ℚ :=
  (recordAt seq t).bind (fun r => getField r.fields k)

lemma seqKeys_update_value (seq : List PredRecord) (t : Int)
    (data : List (String × ℚ)) :
    seqKeys (update_value seq t data)
      = if t ∈ seqKeys seq then seqKeys seq else seqKeys seq ++ [t] := by
  have hmem : (seq.any (fun r => r.date_time = t)) = true ↔ t ∈ seqKeys seq := by
    simp [List.any_eq_true, seqKeys]
  by_cases h : t ∈ seqKeys seq
  · rw [if_pos h]
    rw [update_value, if_pos (hmem.mpr h)]
    unfold seqKeys
    rw [List.map_map]
    apply List.map_congr_left
    intro r _
    by_cases hr : r.date_time = t <;> simp [hr]
  · rw [if_neg h]
    rw [update_value, if_neg (by intro hc; exact h (hmem.mp hc))]
    simp [seqKeys]

lemma nodup_seqKeys_update_value (seq : List PredRecord) (t : Int)
    (data : List (String × ℚ)) (h : (seqKeys seq).Nodup) :
    (seqKeys (update_value seq t data)).Nodup := by
  rw [seqKeys_update_value]
  by_cases hm : t ∈ seqKeys seq
  · rwa [if_pos hm]
  · rw [if_neg hm]
    simp [List.nodup_append, h, hm]

lemma nodup_seqKeys_applyUpdates (calls : List (Int × List (String × ℚ))) :
    ∀ seq : List PredRecord, (seqKeys seq).Nodup →
      (seqKeys (applyUpdates seq calls)).Nodup := by
  induction calls with
  | nil => intro seq h; simpa [applyUpdates] using h
  | cons c rest ih =>
      intro seq h
      have := ih (update_value seq c.1 c.2) (nodup_seqKeys_update_value seq c.1 c.2 h)
      simpa [applyUpdates] using this

lemma toFinset_seqKeys_applyUpdates (calls : List (Int × List (String × ℚ))) :
    ∀ seq : List PredRecord,
      (seqKeys (applyUpdates seq calls)).toFinset
        = (seqKeys seq).toFinset ∪ (calls.map Prod.fst).toFinset := by
  induction calls with
  | nil => intro seq; simp [applyUpdates]
  | cons c rest ih =>
      intro seq
      have h1 : applyUpdates seq (c :: rest) = applyUpdates (update_value seq c.1 c.2) rest := by
        simp [applyUpdates]
      rw [h1, ih]
      have h2 := seqKeys_update_value seq c.1 c.2
      by_cases hm : c.1 ∈ seqKeys seq
      · rw [h2, if_pos hm]
        ext x
        simp only [Finset.mem_union, List.mem_toFinset, List.map_cons, List.toFinset_cons,
          Finset.mem_insert]
        constructor
        · rintro (hx | hx)
          · exact Or.inl hx
          · exact Or.inr (Or.inr hx)
        · rintro (hx | hx | hx)
          · exact Or.inl hx
          · exact Or.inl (hx ▸ hm)
          · exact Or.inr hx
      · rw [h2, if_neg hm]
        ext x
        simp only [Finset.mem_union, List.mem_toFinset, List.mem_append, List.mem_singleton,
          List.map_cons, List.toFinset_cons, Finset.mem_insert]
        tauto

lemma length_applyUpdates_nil (calls : List (Int × List (String × ℚ))) :
    (applyUpdates [] calls).length = ((calls.map Prod.fst).dedup).length := by
  have hnd : (seqKeys (applyUpdates [] calls)).Nodup :=
    nodup_seqKeys_applyUpdates calls [] (by simp [seqKeys])
  have hlen : (applyUpdates [] calls).length = (seqKeys (applyUpdates [] calls)).length := by
    simp [seqKeys]
  rw [hlen]
  have h1 : (seqKeys (applyUpdates [] calls)).length
      = (seqKeys (applyUpdates [] calls)).toFinset.card := by
    rw [List.card_toFinset, hnd.dedup]
  rw [h1, toFinset_seqKeys_applyUpdates calls []]
  simp [seqKeys, List.card_toFinset]

lemma find?_overwrite (fs : List (String × ℚ)) (k : String) (v : ℚ)
    (h : fs.any (fun p => p.1 = k) = true) :
    (fs.map (fun p => if p.1 = k then (k, v) else p)).find? (fun p => p.1 = k)
      = some (k, v) := by
  induction fs with
  | nil => simp at h
  | cons p rest ih =>
      by_cases hp : p.1 = k
      · simp only [List.map_cons, if_pos hp]
        rw [List.find?_cons_of_pos _ (by simp)]
      · have h' : rest.any (fun p => p.1 = k) = true := by
          simp only [List.any_cons, Bool.or_eq_true, decide_eq_true_eq] at h
          rcases h with h | h
          · exact absurd h hp
          · exact h
        simp only [List.map_cons, if_neg hp]
        rw [List.find?_cons_of_neg _ (by simp [hp])]
        exact ih h'

lemma find?_overwrite_other (fs : List (String × ℚ)) (k k' : String) (v : ℚ)
    (hk : k' ≠ k) :
    (fs.map (fun p => if p.1 = k then (k, v) else p)).find? (fun p => p.1 = k')
      = fs.find? (fun p => p.1 = k') := by
  induction fs with
  | nil => simp
  | cons p rest ih =>
      by_cases hp : p.1 = k
      · simp only [List.map_cons, if_pos hp]
        rw [List.find?_cons_of_neg _ (by simp [Ne.symm hk]),
          List.find?_cons_of_neg _ (by simp [hp, Ne.symm hk])]
        exact ih
      · simp only [List.map_cons, if_neg hp]
        by_cases hp' : p.1 = k'
        · rw [List.find?_cons_of_pos _ (by simp [hp']),
            List.find?_cons_of_pos _ (by simp [hp'])]
        · rw [List.find?_cons_of_neg _ (by simp [hp']),
            List.find?_cons_of_neg _ (by simp [hp'])]
          exact ih

lemma find?_append_none (fs tail : List (String × ℚ)) (k : String)
    (hall : ∀ p ∈ fs, ¬ (p.1 = k)) :
    (fs ++ tail).find? (fun p => p.1 = k) = tail.find? (fun p => p.1 = k) := by
  induction fs with
  | nil => simp
  | cons p rest ih =>
      rw [List.cons_append, List.find?_cons_of_neg _ (by simp [hall p (by simp)])]
      exact ih (fun q hq => hall q (by simp [hq]))

lemma getField_setField_self (fs : List (String × ℚ)) (k : String) (v : ℚ) :
    getField (setField fs k v) k = some v := by
  unfold setField
  by_cases h : fs.any (fun p => p.1 = k) = true
  · rw [if_pos h]
    unfold getField
    rw [find?_overwrite fs k v h]
    rfl
  · rw [if_neg h]
    unfold getField
    have hall : ∀ p ∈ fs, ¬ (p.1 = k) := by
      intro p hp hc
      exact h (List.any_eq_true.mpr ⟨p, hp, by simp [hc]⟩)
    rw [find?_append_none fs _ k hall, List.find?_cons_of_pos _ (by simp)]
    rfl

lemma getField_setField_other (fs : List (String × ℚ)) (k k' : String) (v : ℚ)
    (hk : k' ≠ k) :
    getField (setField fs k v) k' = getField fs k' := by
  unfold setField
  by_cases h : fs.any (fun p => p.1 = k) = true
  · rw [if_pos h]
    unfold getField
    rw [find?_overwrite_other fs k k' v hk]
  · rw [if_neg h]
    unfold getField
    congr 1
    induction fs with
    | nil => simp [Ne.symm hk]
    | cons p rest ih =>
        by_cases hp' : p.1 = k'
        · rw [List.cons_append, List.find?_cons_of_pos _ (by simp [hp']),
            List.find?_cons_of_pos _ (by simp [hp'])]
        · rw [List.cons_append, List.find?_cons_of_neg _ (by simp [hp']),
            List.find?_cons_of_neg _ (by simp [hp'])]
          exact ih (by intro hc; exact h (by simp [List.any_cons, hc]))

lemma getField_setFields_not_mem (data : List (String × ℚ)) :
    ∀ fs k, k ∉ data.map Prod.fst → getField (setFields fs data) k = getField fs k := by
  induction data with
  | nil => intro fs k _; simp [setFields]
  | cons p rest ih =>
      intro fs k hk
      simp only [List.map_cons, List.mem_cons] at hk
      push_neg at hk
      have h1 : setFields fs (p :: rest) = setFields (setField fs p.1 p.2) rest := by
        simp [setFields]
      rw [h1, ih (setField fs p.1 p.2) k hk.2,
        getField_setField_other fs p.1 k p.2 hk.1]

lemma getField_setFields_mem (data : List (String × ℚ)) :
    ∀ fs kv, (data.map Prod.fst).Nodup → kv ∈ data →
      getField (setFields fs data) kv.1 = some kv.2 := by
  induction data with
  | nil => intro fs kv _ h; simp at h
  | cons p rest ih =>
      intro fs kv hnd hkv
      have h1 : setFields fs (p :: rest) = setFields (setField fs p.1 p.2) rest := by
        simp [setFields]
      simp only [List.map_cons, List.nodup_cons] at hnd
      rcases List.mem_cons.mp hkv with h | h
      · subst h
        rw [h1, getField_setFields_not_mem rest _ kv.1 hnd.1,
          getField_setField_self]
      · rw [h1]
        exact ih (setField fs p.1 p.2) kv hnd.2 h

lemma recordAt_update_value_self (seq : List PredRecord) (t : Int)
    (data : List (String × ℚ)) :
    recordAt (update_value seq t data) t
      = some ⟨t, setFields (((recordAt seq t).map PredRecord.fields).getD []) data⟩ := by
  unfold recordAt update_value
  have hpred : (fun r : PredRecord =>
      decide ((if r.date_time = t then
        { r with fields := setFields r.fields data } else r).date_time = t))
      = (fun r : PredRecord => decide (r.date_time = t)) := by
    funext r
    by_cases hr : r.date_time = t <;> simp [hr]
  cases h : seq.find? (fun r => r.date_time = t) with
  | some r0 =>
      have hr0 : r0.date_time = t := by simpa using List.find?_some h
      have hany : (seq.any (fun r => r.date_time = t)) = true :=
        List.any_eq_true.mpr ⟨r0, List.mem_of_find?_eq_some h, by simp [hr0]⟩
      rw [if_pos hany, List.find?_map]
      show ((seq.find? _).map _) = _
      rw [show (fun r : PredRecord => decide (r.date_time = t)) ∘
          (fun r : PredRecord => if r.date_time = t then
            { r with fields := setFields r.fields data } else r)
          = (fun r : PredRecord => decide (r.date_time = t)) from by
        funext r; by_cases hr : r.date_time = t <;> simp [hr]]
      rw [h]
      cases r0 with
      | mk dt fs =>
          simp only at hr0
          subst hr0
          simp
  | none =>
      have hany : (seq.any (fun r => r.date_time = t)) = false := by
        rw [Bool.eq_false_iff]
        intro hc
        rcases List.any_eq_true.mp hc with ⟨r, hr, hp⟩
        have := List.find?_eq_none.mp h r hr
        simp_all
      rw [if_neg (by simp [hany]), List.find?_append, h]
      simp [recordAt, h]

lemma recordAt_update_value_other (seq : List PredRecord) (t t' : Int)
    (data : List (String × ℚ)) (ht : t' ≠ t) :
    recordAt (update_value seq t data) t' = recordAt seq t' := by
  unfold recordAt update_value
  by_cases hany : (seq.any (fun r => r.date_time = t)) = true
  · rw [if_pos hany, List.find?_map]
    rw [show (fun r : PredRecord => decide (r.date_time = t')) ∘
        (fun r : PredRecord => if r.date_time = t then
          { r with fields := setFields r.fields data } else r)
        = (fun r : PredRecord => decide (r.date_time = t')) from by
      funext r; by_cases hr : r.date_time = t <;> simp [hr]]
    cases h : seq.find? (fun r => r.date_time = t') with
    | some r0 =>
        have hr0 : r0.date_time = t' := by simpa using List.find?_some h
        simp [hr0, ht]
    | none => simp
  · rw [if_neg hany, List.find?_append]
    have hsingle : ([({ date_time := t, fields := setFields [] data } : PredRecord)].find?
        (fun r => r.date_time = t')) = none := by
      simp [Ne.symm ht]
    rw [hsingle]
    simp

lemma fieldAt_update_value_mem (seq : List PredRecord) (t : Int)
    (data : List (String × ℚ)) (kv : String × ℚ)
    (hnd : (data.map Prod.fst).Nodup) (hkv : kv ∈ data) :
    fieldAt (update_value seq t data) t kv.1 = some kv.2 := by
  unfold fieldAt
  rw [recordAt_update_value_self]
  exact getField_setFields_mem data _ kv hnd hkv

lemma fieldAt_update_value_not_mem (seq : List PredRecord) (t : Int)
    (data : List (String × ℚ)) (k : String) (hk : k ∉ data.map Prod.fst) :
    fieldAt (update_value seq t data) t k = fieldAt seq t k := by
  unfold fieldAt
  rw [recordAt_update_value_self]
  show getField (setFields (((recordAt seq t).map PredRecord.fields).getD []) data) k
    = (recordAt seq t).bind (fun r => getField r.fields k)
  rw [getField_setFields_not_mem data _ k hk]
  cases h : recordAt seq t with
  | some r0 => simp [h, getField]
  | none => simp [h, getField]

/-- Claim C1: `update_value` is an upsert keyed by `date_time`.  (1) Sequences
with distinct instants keep distinct instants under any series of
`update_value` calls, so there is at most one record per instant; (2) after an
upsert a record for the instant exists; (3) every named field is set to the
given value; (4) every field not named is untouched — on an existing record it
is preserved, on a fresh record it stays unknown; (5) the length of a sequence
built from empty by any series of calls equals the number of distinct instants
inserted, no matter how many fields each call sets. -/
theorem C1_update_value_upsert :
    (∀ (seq : List PredRecord) (calls : List (Int × List (String × ℚ))),
      (seqKeys seq).Nodup → (seqKeys (applyUpdates seq calls)).Nodup) ∧
    (∀ (seq : List PredRecord) (t : Int) (data : List (String × ℚ)),
      (recordAt (update_value seq t data) t).isSome) ∧
    (∀ (seq : List PredRecord) (t : Int) (data : List (String × ℚ))
      (kv : String × ℚ), (data.map Prod.fst).Nodup → kv ∈ data →
      fieldAt (update_value seq t data) t kv.1 = some kv.2) ∧
    (∀ (seq : List PredRecord) (t : Int) (data : List (String × ℚ)) (k : String),
      k ∉ data.map Prod.fst →
      fieldAt (update_value seq t data) t k = fieldAt seq t k) ∧
    (∀ calls : List (Int × List (String × ℚ)),
      (applyUpdates [] calls).length = ((calls.map Prod.fst).dedup).length) := by
  refine ⟨?_, ?_, ?_, ?_, ?_⟩
  · intro seq calls h
    exact nodup_seqKeys_applyUpdates calls seq h
  · intro seq t data
    rw [recordAt_update_value_self]
    rfl
  · intro seq t data kv hnd hkv
    exact fieldAt_update_value_mem seq t data kv hnd hkv
  · intro seq t data k hk
    exact fieldAt_update_value_not_mem seq t data k hk
  · intro calls
    exact length_applyUpdates_nil calls

/-- Witness for C1 at concrete inputs: two updates at the same instant merge
into one record carrying both fields, and the store length counts distinct
instants. -/
theorem C1_update_value_upsert_witness :
    (seqKeys (applyUpdates [] [(0, [("a", 1)]), (0, [("b", 2)]), (3600, [("a", 5)])])).Nodup ∧
    (recordAt (update_value [] 0 [("a", 1)]) 0).isSome = true ∧
    fieldAt (update_value [⟨0, [("a", 1)]⟩] 0 [("b", 2)]) 0 "b" = some 2 ∧
    fieldAt (update_value [⟨0, [("a", 1)]⟩] 0 [("b", 2)]) 0 "a"
      = fieldAt [⟨0, [("a", 1)]⟩] 0 "a" ∧
    (applyUpdates [] [(0, [("a", 1)]), (0, [("b", 2)]), (3600, [("a", 5)])]).length = 2 := by
  refine ⟨?_, ?_, ?_, ?_, ?_⟩
  · exact C1_update_value_upsert.1 [] _ (by decide)
  · exact C1_update_value_upsert.2.1 [] 0 [("a", 1)]
  · exact C1_update_value_upsert.2.2.1 [⟨0, [("a", 1)]⟩] 0 [("b", 2)] ("b", 2)
      (by decide) (by decide)
  · exact C1_update_value_upsert.2.2.2.1 [⟨0, [("a", 1)]⟩] 0 [("b", 2)] "a" (by decide)
  · have h := C1_update_value_upsert.2.2.2.2
      [(0, [("a", 1)]), (0, [("b", 2)]), (3600, [("a", 5)])]
    rw [h]
    decide

/-! ## Resampler (modelled from the spec)

`Modelled from the spec:` `key_to_array` lives in the generic store module,
which is not among the inspected sources.  Per the spec it produces a dense
sequence of one numeric value per step in `[start, end)` — exact-match lookup
per step, a gap surfacing as a missing-value marker — and rejects a request
where `end <= start`. -/

/-- The step-aligned instants of the half-open interval `[s, e)`:
`s, s + step, s + 2*step, …` while below `e`. -/
def stepInstants (s e : Int) (step : Nat) : List Int :=
  if _h : step = 0 ∨ e ≤ s then []
  else s :: stepInstants (s + step) e step
termination_by (e - s).toNat
decreasing_by
  push_neg at _h
  omega

/-- Modelled from the spec: `key_to_array(key, start, end, step)` rejects
`end <= start` and otherwise returns one entry per step instant of
`[start, end)` — the value of `key` on the record matching that instant
exactly, `none` marking a gap. -/
def key_to_array (seq : List PredRecord) (key : String) (s e : Int) (step : Nat) :
    Except String (List (Option ℚ)) :=
  if e ≤ s then .error "end_datetime must be after start_datetime"
  else .ok ((stepInstants s e step).map (fun t => fieldAt seq t key))

lemma stepInstants_length (step : Nat) (hstep : 0 < step) :
    ∀ n (s e : Int), (e - s).toNat = n →
      (stepInstants s e step).length = (n + step - 1) / step := by
  intro n
  induction n using Nat.strong_induction_on with
  | _ n ih =>
      intro s e hn
      by_cases he : e ≤ s
      · rw [stepInstants, dif_pos (Or.inr he)]
        have hn0 : n = 0 := by omega
        subst hn0
        simp only [List.length_nil]
        exact (Nat.div_eq_of_lt (by omega)).symm
      · rw [stepInstants, dif_neg (by omega)]
        have hlt : (e - (s + step)).toNat < n := by omega
        have hrec := ih _ hlt (s + step) e rfl
        simp only [List.length_cons, hrec]
        have hn1 : 1 ≤ n := by omega
        by_cases hcase : step ≤ n
        · have h1 : (e - (s + step)).toNat = n - step := by omega
          rw [h1]
          have h2 : n - step + step - 1 = n - 1 := by omega
          have h3 : n + step - 1 = (n - 1) + step := by omega
          rw [h2, h3, Nat.add_div_right _ hstep]
        · have h1 : (e - (s + step)).toNat = 0 := by omega
          rw [h1]
          have h2 : (0 + step - 1) / step = 0 := Nat.div_eq_of_lt (by omega)
          have h3 : n + step - 1 = (n - 1) + step := by omega
          rw [h2, h3, Nat.add_div_right _ hstep, Nat.div_eq_of_lt (by omega)]

/-- Claim C2: for a valid request with `start < end` and a positive step,
`key_to_array` succeeds and the returned array has length exactly
`ceil((end - start) / step)`; a request with `end <= start` is rejected. -/
theorem C2_key_to_array_length (seq : List PredRecord) (key : String)
    (s e : Int) (step : Nat) (hstep : 0 < step) :
    (s < e → ∃ arr, key_to_array seq key s e step = .ok arr ∧
      arr.length = ((e - s).toNat + step - 1) / step) ∧
    (e ≤ s → key_to_array seq key s e step
      = .error "end_datetime must be after start_datetime") := by
  constructor
  · intro hlt
    refine ⟨(stepInstants s e step).map (fun t => fieldAt seq t key), ?_, ?_⟩
    · rw [key_to_array, if_neg (by omega)]
    · rw [List.length_map]
      exact stepInstants_length step hstep _ s e rfl
  · intro hle
    rw [key_to_array, if_pos hle]

/-- Witness for C2: a 2-hour window at 1-hour step yields 2 entries, and the
reversed window is rejected. -/
theorem C2_key_to_array_length_witness :
    (∃ arr, key_to_array [] "load_mean" 0 7200 3600 = .ok arr ∧
      arr.length = ((7200 - 0 : Int).toNat + 3600 - 1) / 3600) ∧
    key_to_array [] "load_mean" 7200 7200 3600
      = .error "end_datetime must be after start_datetime" := by
  constructor
  · exact (C2_key_to_array_length [] "load_mean" 0 7200 3600 (by decide)).1 (by decide)
  · exact (C2_key_to_array_length [] "load_mean" 7200 7200 3600 (by decide)).2 (by decide)

/-! ## File-based TTL cache (modelled from the spec)

`Modelled from the spec:` the `CacheFileStore` module (`cacheutil.py`) is not
among the inspected sources.  Per the spec, a cache entry for a fingerprint
holds the serialized result of the wrapped call plus a creation timestamp and
a TTL; a read within the TTL returns the stored value without invoking the
wrapped call, `force_update` bypasses the cache unconditionally and overwrites
the entry, and an elapsed TTL behaves as a miss.  One fingerprint is modelled
(two calls "with identical cache-relevant arguments" address the same
entry). -/

/-- One cache entry: stored value, creation time, TTL (seconds). -/
structure CacheEntry (α : Type) where
  value : α
  created : Nat
  ttlSec : Nat
deriving DecidableEq

/-- The cache state for one fingerprint: the entry, if present. -/
structure CacheState (α : Type) where
  entry : Option (CacheEntry α)
deriving DecidableEq

/-- Modelled from the spec: one call through the cache wrapper at time `now`.
Returns the call's result, the cache state afterwards, and how many times the
underlying (wrapped) network call was invoked (0 or 1).  `fetch` is the result
the underlying call would produce. -/
def cachedCall {α : Type} (fetch : α) (ttlArg : Nat) (now : Nat) (force : Bool)
    (st : CacheState α) : α × CacheState α × Nat :=
  if force then
    (fetch, ⟨some ⟨fetch, now, ttlArg⟩⟩, 1)
  else
    match st.entry with
    | some en =>
        if now < en.created + en.ttlSec then (en.value, st, 0)
        else (fetch, ⟨some ⟨fetch, now, ttlArg⟩⟩, 1)
    | none => (fetch, ⟨some ⟨fetch, now, ttlArg⟩⟩, 1)

/-- Claim C3: (1) two wrapped calls with identical cache-relevant arguments
within the TTL invoke the underlying call exactly once — the second call
invokes it zero times and returns the value the first call stored; (2)
`force_update` bypasses the cache unconditionally: the underlying call is
invoked again and the entry is overwritten; (3) an entry whose TTL has elapsed
behaves exactly like a cache miss. -/
theorem C3_cache_ttl {α : Type} (fetch : α) (ttlArg now₀ now₁ : Nat) :
    (now₁ < now₀ + ttlArg →
      (cachedCall fetch ttlArg now₀ false (⟨none⟩ : CacheState α)).2.2 = 1 ∧
      (cachedCall fetch ttlArg now₁ false
        (cachedCall fetch ttlArg now₀ false (⟨none⟩ : CacheState α)).2.1).2.2 = 0 ∧
      (cachedCall fetch ttlArg now₁ false
        (cachedCall fetch ttlArg now₀ false (⟨none⟩ : CacheState α)).2.1).1 = fetch) ∧
    (∀ st : CacheState α, (cachedCall fetch ttlArg now₁ true st).2.2 = 1 ∧
      (cachedCall fetch ttlArg now₁ true st).2.1.entry = some ⟨fetch, now₁, ttlArg⟩) ∧
    (∀ en : CacheEntry α, en.created + en.ttlSec ≤ now₁ →
      cachedCall fetch ttlArg now₁ false (⟨some en⟩ : CacheState α)
        = cachedCall fetch ttlArg now₁ false (⟨none⟩ : CacheState α)) := by
  refine ⟨?_, ?_, ?_⟩
  · intro hin
    refine ⟨rfl, ?_, ?_⟩
    · show (cachedCall fetch ttlArg now₁ false ⟨some ⟨fetch, now₀, ttlArg⟩⟩).2.2 = 0
      rw [cachedCall, if_neg (by simp)]
      simp only
      rw [if_pos hin]
    · show (cachedCall fetch ttlArg now₁ false ⟨some ⟨fetch, now₀, ttlArg⟩⟩).1 = fetch
      rw [cachedCall, if_neg (by simp)]
      simp only
      rw [if_pos hin]
  · intro st
    constructor
    · rw [cachedCall, if_pos rfl]
    · rw [cachedCall, if_pos rfl]
  · intro en hel
    rw [cachedCall, if_neg (by simp)]
    simp only
    rw [if_neg (by omega)]
    rw [cachedCall, if_neg (by simp)]

/-- Witness for C3 at concrete inputs: a first call at `t = 10` with TTL 3600,
a second at `t = 100`; a forced call; an expired entry. -/
theorem C3_cache_ttl_witness :
    ((cachedCall (42 : Nat) 3600 10 false (⟨none⟩ : CacheState Nat)).2.2 = 1 ∧
      (cachedCall 42 3600 100 false
        (cachedCall (42 : Nat) 3600 10 false (⟨none⟩ : CacheState Nat)).2.1).2.2 = 0 ∧
      (cachedCall 42 3600 100 false
        (cachedCall (42 : Nat) 3600 10 false (⟨none⟩ : CacheState Nat)).2.1).1 = 42) ∧
    ((cachedCall (42 : Nat) 3600 100 true ⟨some ⟨7, 0, 999999⟩⟩).2.2 = 1 ∧
      (cachedCall (42 : Nat) 3600 100 true ⟨some ⟨7, 0, 999999⟩⟩).2.1.entry
        = some ⟨42, 100, 3600⟩) ∧
    cachedCall (42 : Nat) 3600 100 false ⟨some ⟨7, 10, 90⟩⟩
      = cachedCall 42 3600 100 false (⟨none⟩ : CacheState Nat) := by
  refine ⟨?_, ?_, ?_⟩
  · exact (C3_cache_ttl 42 3600 10 100).1 (by decide)
  · exact (C3_cache_ttl 42 3600 10 100).2.1 ⟨some ⟨7, 0, 999999⟩⟩
  · exact (C3_cache_ttl 42 3600 10 100).2.2 ⟨7, 10, 90⟩ (by decide)

/-! ## PVForecastAkkudoktor (from `prediction/pvforecastakkudoktor.py`)

Payload schema, validation diagnostics, and `_update_data` normalisation.
Floats are rationals; the `datetime` strings of forecast values are modelled
as already-parsed instants (epoch seconds), standing for
`to_datetime(original_datetime, in_timezone=...)`. -/

/-- Schema `AkkudoktorForecastHorizon`. -/
structure AkkudoktorForecastHorizon where
  altitude : Int
  azimuthFrom : Int
  azimuthTo : Int
deriving DecidableEq

/-- Schema `AkkudoktorForecastMeta`. -/
structure AkkudoktorForecastMeta where
  lat : ℚ
  lon : ℚ
  power : List Int
  azimuth : List Int
  tilt : List Int
  timezone : String
  albedo : ℚ
  past_days : Int
  inverterEfficiency : ℚ
  powerInverter : List Int
  cellCoEff : ℚ
  range : Bool
  horizont : List (List AkkudoktorForecastHorizon)
  horizontString : List String
deriving DecidableEq

/-- Schema `AkkudoktorForecastValue`; `datetime` is the parsed instant. -/
structure AkkudoktorForecastValue where
  datetime : Int
  dcPower : ℚ
  power : ℚ
  sunTilt : ℚ
  sunAzimuth : ℚ
  temperature : Option ℚ
  relativehumidity_2m : Option ℚ
  windspeed_10m : Option ℚ
deriving DecidableEq

/-- Schema `AkkudoktorForecast`: metadata plus one list of forecast values per
configured plane. -/
structure AkkudoktorForecast where
  meta : AkkudoktorForecastMeta
  values : List (List AkkudoktorForecastValue)
deriving DecidableEq

/-- `PVForecastAkkudoktorDataRecord`: the two power fields inherited from
`PVForecastDataRecord` plus the Akkudoktor-specific stored fields.  All are
optional; absent means unknown. -/
structure PVForecastAkkudoktorDataRecord where
  date_time : Int
  pvforecast_dc_power : Option ℚ := none
  pvforecast_ac_power : Option ℚ := none
  pvforecastakkudoktor_ac_power_measured : Option ℚ := none
  pvforecastakkudoktor_wind_speed_10m : Option ℚ := none
  pvforecastakkudoktor_temp_air : Option ℚ := none
deriving DecidableEq

/-- Computed field `pvforecastakkudoktor_ac_power_any` (source lines 136–150):
the measured AC power when available, otherwise the forecasted AC power. -/
def pvforecastakkudoktor_ac_power_any (r : PVForecastAkkudoktorDataRecord) :
    Option ℚ :=
  if r.pvforecastakkudoktor_ac_power_measured ≠ none then
    r.pvforecastakkudoktor_ac_power_measured
  else
    r.pvforecast_ac_power

/-- The configuration values `_update_data` reads: the number of configured PV
planes, the configured timezone, and the forecast horizon in hours. -/
structure PVConfig where
  planes : Nat
  timezone : String
  prediction_hours : Nat
deriving DecidableEq

/-- `start_datetime.start_of("day")`: the beginning of the civil day holding
`t` (epoch seconds; single-timezone model of pendulum's `start_of`). -/
def startOfDay (t : Int) : Int :=
  t - t % 86400

/-- Modelled from the spec: `update_value(dt, data)` on the provider's
sequence, specialised to the field mapping `_update_data` builds (source
lines 308–315) — an upsert that overwrites exactly the four named fields and
preserves everything else on the record (notably the measured AC power). -/
def updatePVValue (recs : List PVForecastAkkudoktorDataRecord) (t : Int)
    (dc ac : ℚ) (wind temp : Option ℚ) : List PVForecastAkkudoktorDataRecord :=
  if recs.any (fun r => r.date_time = t) then
    recs.map (fun r =>
      if r.date_time = t then
        { r with pvforecast_dc_power := some dc, pvforecast_ac_power := some ac,
                 pvforecastakkudoktor_wind_speed_10m := wind,
                 pvforecastakkudoktor_temp_air := temp }
      else r)
  else
    recs ++ [{ date_time := t, pvforecast_dc_power := some dc,
               pvforecast_ac_power := some ac,
               pvforecastakkudoktor_wind_speed_10m := wind,
               pvforecastakkudoktor_temp_air := temp }]

/-- Fuelled worker for `zipStar`. -/
def zipStarGo {α : Type} : Nat → List (List α) → List (List α)
  | 0, _ => []
  | n + 1, ls =>
      if ls.all (fun l => !l.isEmpty) then
        (ls.filterMap List.head?) :: zipStarGo n (ls.map List.tail)
      else []

/-- Python's `zip(*values)`: rows across the per-plane lists, truncated at the
shortest list; no rows when there is no list at all. -/
def zipStar {α : Type} (ls : List (List α)) : List (List α) :=
  match ls with
  | [] => []
  | l₀ :: _ => zipStarGo l₀.length ls

/-- One iteration of the merge loop of `_update_data` (source lines 297–315):
read the row's instant from the first plane, skip rows before the start of the
day of `start_datetime`, otherwise upsert the per-plane power sums plus wind
speed and temperature of the first plane. -/
def mergeRow (start : Int) (recs : List PVForecastAkkudoktorDataRecord)
    (row : List AkkudoktorForecastValue) : List PVForecastAkkudoktorDataRecord :=
  match row.head? with
  | none => recs
  | some fv0 =>
      if fv0.datetime < startOfDay start then recs
      else
        updatePVValue recs fv0.datetime
          ((row.map (fun v => v.dcPower)).sum)
          ((row.map (fun v => v.power)).sum)
          fv0.windspeed_10m fv0.temperature

/-- The whole merge loop over the zipped forecast rows. -/
def mergeRows (start : Int) (recs : List PVForecastAkkudoktorDataRecord)
    (rows : List (List AkkudoktorForecastValue)) :
    List PVForecastAkkudoktorDataRecord :=
  rows.foldl (mergeRow start) recs

/-- The distinct failure exits of the update path, one per `raise` site. -/
inductive PVUpdateError where
  /-- "Requested PV forecast, but no planes configured." (line 270) -/
  | noPlanes : PVUpdateError
  /-- Validation of the fetched payload failed (`_validate_data`, line 199). -/
  | validationFailed (msg : String) : PVUpdateError
  /-- Configured timezone differs from the payload's (line 279). -/
  | timezoneMismatch (cfg api : String) : PVUpdateError
  /-- `values` is empty, so `values[0]` fails (line 285, IndexError). -/
  | noValueLists : PVUpdateError
  /-- Fewer per-hour value sets than `prediction_hours` (line 287). -/
  | forecastTooShortPre (need got : Nat) : PVUpdateError
  /-- Fewer than `prediction_hours` records after the merge (line 318). -/
  | forecastTooShortPost (need got : Nat) : PVUpdateError
deriving DecidableEq

/-- `_update_data` after a successful fetch (source lines 261–322): plane
check, timezone check, horizon pre-check on `values[0]`, merge loop, horizon
post-check on the resulting sequence. -/
def _update_data (cfg : PVConfig) (start : Int)
    (recs : List PVForecastAkkudoktorDataRecord) (payload : AkkudoktorForecast) :
    Except PVUpdateError (List PVForecastAkkudoktorDataRecord) :=
  if cfg.planes = 0 then .error .noPlanes
  else if cfg.timezone ≠ payload.meta.timezone then
    .error (.timezoneMismatch cfg.timezone payload.meta.timezone)
  else
    match payload.values with
    | [] => .error .noValueLists
    | v₀ :: _ =>
        if v₀.length < cfg.prediction_hours then
          .error (.forecastTooShortPre cfg.prediction_hours v₀.length)
        else
          let recs' := mergeRows start recs (zipStar payload.values)
          if recs'.length < cfg.prediction_hours then
            .error (.forecastTooShortPost cfg.prediction_hours recs'.length)
          else .ok recs'

/-- One pydantic validation error entry, as `e.errors()` yields it: location
path, message, error type, and the received input value. -/
structure PydanticErrorEntry where
  loc : List String
  msg : String
  errType : String
  input : String
deriving DecidableEq

/-- `" -> ".join(str(x) for x in error["loc"])` (source line 194). -/
def joinArrow (loc : List String) : String :=
  String.intercalate " -> " loc

/-- One block of the diagnostic (source line 197):
`f"Field: {field}\nError: {message}\nType: {error_type}\n"`. -/
def formatPydanticError (e : PydanticErrorEntry) : String :=
  "Field: " ++ joinArrow e.loc ++ "\nError: " ++ e.msg ++ "\nType: "
    ++ e.errType ++ "\n"

/-- The accumulated diagnostic of `_validate_data` (source lines 192–197). -/
def validationErrorMsg (es : List PydanticErrorEntry) : String :=
  es.foldl (fun acc e => acc ++ formatPydanticError e) ""

/-- `_validate_data` (source lines 186–200), applied to the outcome of
`model_validate_json`: a structurally valid payload passes through, an invalid
one raises with the accumulated per-field diagnostic. -/
def _validate_data (parsed : Except (List PydanticErrorEntry) AkkudoktorForecast) :
    Except String AkkudoktorForecast :=
  match parsed with
  | .error es => .error (validationErrorMsg es)
  | .ok d => .ok d

/-- The update path as `update_data` drives it: the plane check of
`_update_data` (line 268), then the fetch's validation (`_request_forecast`
calls `_validate_data` before returning, line 256), then the rest of
`_update_data`. -/
def update_data_flow (cfg : PVConfig) (start : Int)
    (recs : List PVForecastAkkudoktorDataRecord)
    (parsed : Except (List PydanticErrorEntry) AkkudoktorForecast) :
    Except PVUpdateError (List PVForecastAkkudoktorDataRecord) :=
  if cfg.planes = 0 then .error .noPlanes
  else
    match _validate_data parsed with
    | .error msg => .error (.validationFailed msg)
    | .ok payload => _update_data cfg start recs payload

/-- The record the provider's sequence stores for instant `t`, if any. -/
def pvRecordAt (recs : List PVForecastAkkudoktorDataRecord) (t : Int) :
    Option PVForecastAkkudoktorDataRecord :=
  recs.find? (fun r => r.date_time = t)

/-- Claim C4 (amended): with planes configured and matching timezone, a
payload holding at least one per-plane value list but covering fewer than
`prediction_hours` hourly records makes `_update_data` fail with a
data-shortage error: (1) a first value list shorter than the horizon fails the
pre-check; (2) an adequate first list whose merge still leaves fewer than
`prediction_hours` records fails the post-check, which runs after
normalization; (3) hence success guarantees at least `prediction_hours`
records. -/
theorem C4_data_shortage (cfg : PVConfig) (start : Int)
    (recs : List PVForecastAkkudoktorDataRecord) (payload : AkkudoktorForecast)
    (v₀ : List AkkudoktorForecastValue) (vs : List (List AkkudoktorForecastValue))
    (h1 : cfg.planes ≠ 0) (h2 : cfg.timezone = payload.meta.timezone)
    (h3 : payload.values = v₀ :: vs) :
    (v₀.length < cfg.prediction_hours →
      _update_data cfg start recs payload
        = .error (.forecastTooShortPre cfg.prediction_hours v₀.length)) ∧
    (cfg.prediction_hours ≤ v₀.length →
      (mergeRows start recs (zipStar payload.values)).length < cfg.prediction_hours →
      _update_data cfg start recs payload
        = .error (.forecastTooShortPost cfg.prediction_hours
            (mergeRows start recs (zipStar payload.values)).length)) ∧
    (∀ recs', _update_data cfg start recs payload = .ok recs' →
      cfg.prediction_hours ≤ recs'.length) := by
  unfold _update_data
  rw [if_neg h1, if_neg (by simp [h2]), h3]
  dsimp only
  refine ⟨?_, ?_, ?_⟩
  · intro hshort
    rw [if_pos hshort]
  · intro hok hpost
    rw [if_neg (show ¬ v₀.length < cfg.prediction_hours by omega)]
    rw [if_pos hpost]
  · intro recs' hok
    by_cases hshort : v₀.length < cfg.prediction_hours
    · rw [if_pos hshort] at hok
      exact absurd hok (by simp)
    · rw [if_neg hshort] at hok
      by_cases hpost :
          (mergeRows start recs (zipStar (v₀ :: vs))).length < cfg.prediction_hours
      · rw [if_pos hpost] at hok
        exact absurd hok (by simp)
      · rw [if_neg hpost] at hok
        injection hok with h4
        subst h4
        omega

/-- A metadata block matching the example configuration of the source. -/
def exMeta : AkkudoktorForecastMeta :=
  { lat := 52.52, lon := 13.405, power := [5000], azimuth := [-10], tilt := [7],
    timezone := "Europe/Berlin", albedo := 0.25, past_days := 5,
    inverterEfficiency := 0.8, powerInverter := [10000], cellCoEff := -0.36,
    range := true, horizont := [[⟨20, 0, 90⟩]], horizontString := ["20"] }

/-- Witness for C4: a single-plane payload whose only value list is empty is
rejected by the pre-check, and an adequate payload is long enough on
success. -/
theorem C4_data_shortage_witness :
    _update_data ⟨1, "Europe/Berlin", 48⟩ 0 [] ⟨exMeta, [[]]⟩
      = .error (.forecastTooShortPre 48 0) := by
  have h := (C4_data_shortage ⟨1, "Europe/Berlin", 48⟩ 0 [] ⟨exMeta, [[]]⟩ [] []
    (by decide) (by decide) rfl).1 (by decide)
  simpa using h

/-- Counterexample to C4 as stated: the validated payload with *no* value
lists at all (`values == []`) covers zero hourly records, yet `_update_data`
fails at the subscript `values[0]` (an `IndexError` in Python) and not with
either data-shortage raise. -/
theorem C4_counterexample :
    _update_data ⟨1, "Europe/Berlin", 48⟩ 0 [] ⟨exMeta, []⟩
      = .error .noValueLists ∧
    (PVUpdateError.noValueLists ≠ .forecastTooShortPre 48 0) ∧
    (PVUpdateError.noValueLists ≠ .forecastTooShortPost 48 0) := by
  refine ⟨?_, by decide, by decide⟩
  rfl

/-- Claim C6: with planes configured, a payload whose timezone metadata
disagrees with the configured timezone makes `_update_data` fail with the
schema-drift (timezone mismatch) error, whatever the current sequence holds —
the merge loop is never reached, so the sequence is unchanged by the call. -/
theorem C6_timezone_mismatch (cfg : PVConfig) (start : Int)
    (payload : AkkudoktorForecast) (h1 : cfg.planes ≠ 0)
    (h2 : cfg.timezone ≠ payload.meta.timezone) :
    ∀ recs : List PVForecastAkkudoktorDataRecord,
      _update_data cfg start recs payload
        = .error (.timezoneMismatch cfg.timezone payload.meta.timezone) := by
  intro recs
  unfold _update_data
  rw [if_neg h1, if_pos h2]

/-- Witness for C6: configured timezone `UTC` against payload timezone
`Europe/Berlin`. -/
theorem C6_timezone_mismatch_witness :
    _update_data ⟨1, "UTC", 48⟩ 0 [] ⟨exMeta, [[]]⟩
      = .error (.timezoneMismatch "UTC" "Europe/Berlin") := by
  exact C6_timezone_mismatch ⟨1, "UTC", 48⟩ 0 ⟨exMeta, [[]]⟩ (by decide) (by decide) []

lemma pvRecordAt_updatePVValue_self (recs : List PVForecastAkkudoktorDataRecord)
    (t : Int) (dc ac : ℚ) (wind temp : Option ℚ) :
    ∃ r, pvRecordAt (updatePVValue recs t dc ac wind temp) t = some r ∧
      r.date_time = t ∧ r.pvforecast_dc_power = some dc ∧
      r.pvforecast_ac_power = some ac := by
  unfold pvRecordAt updatePVValue
  by_cases hany : (recs.any (fun r => r.date_time = t)) = true
  · rw [if_pos hany, List.find?_map]
    rw [show (fun r : PVForecastAkkudoktorDataRecord => decide (r.date_time = t)) ∘
        (fun r : PVForecastAkkudoktorDataRecord => if r.date_time = t then
          { r with pvforecast_dc_power := some dc, pvforecast_ac_power := some ac,
                   pvforecastakkudoktor_wind_speed_10m := wind,
                   pvforecastakkudoktor_temp_air := temp } else r)
        = (fun r : PVForecastAkkudoktorDataRecord => decide (r.date_time = t)) from by
      funext r; by_cases hr : r.date_time = t <;> simp [hr]]
    rcases List.any_eq_true.mp hany with ⟨r0, hr0m, hr0p⟩
    have hfind : (recs.find? (fun r => r.date_time = t)).isSome :=
      List.find?_isSome.mpr ⟨r0, hr0m, hr0p⟩
    cases h : recs.find? (fun r => r.date_time = t) with
    | none => rw [h] at hfind; simp at hfind
    | some rf =>
        have hrf : rf.date_time = t := by simpa using List.find?_some h
        exact ⟨_, rfl, by simp [hrf], by simp [hrf], by simp [hrf]⟩
  · rw [if_neg hany, List.find?_append]
    have hleft : recs.find? (fun r => r.date_time = t) = none := by
      rw [List.find?_eq_none]
      intro x hx hc
      exact hany (List.any_eq_true.mpr ⟨x, hx, hc⟩)
    rw [hleft]
    refine ⟨⟨t, some dc, some ac, none, wind, temp⟩, ?_, rfl, rfl, rfl⟩
    simp

lemma pvRecordAt_updatePVValue_other (recs : List PVForecastAkkudoktorDataRecord)
    (t t' : Int) (dc ac : ℚ) (wind temp : Option ℚ) (ht : t' ≠ t) :
    pvRecordAt (updatePVValue recs t dc ac wind temp) t' = pvRecordAt recs t' := by
  unfold pvRecordAt updatePVValue
  by_cases hany : (recs.any (fun r => r.date_time = t)) = true
  · rw [if_pos hany, List.find?_map]
    rw [show (fun r : PVForecastAkkudoktorDataRecord => decide (r.date_time = t')) ∘
        (fun r : PVForecastAkkudoktorDataRecord => if r.date_time = t then
          { r with pvforecast_dc_power := some dc, pvforecast_ac_power := some ac,
                   pvforecastakkudoktor_wind_speed_10m := wind,
                   pvforecastakkudoktor_temp_air := temp } else r)
        = (fun r : PVForecastAkkudoktorDataRecord => decide (r.date_time = t')) from by
      funext r; by_cases hr : r.date_time = t <;> simp [hr]]
    cases h : recs.find? (fun r => r.date_time = t') with
    | some rf =>
        have hrf : rf.date_time = t' := by simpa using List.find?_some h
        simp [hrf, ht]
    | none => simp
  · rw [if_neg hany, List.find?_append]
    simp [Ne.symm ht]

/-- The instants of the rows the merge loop keeps (head present and not before
the start of the day of `start`). -/
def keptTimes (start : Int) (rows : List (List AkkudoktorForecastValue)) :
    List Int :=
  rows.filterMap (fun row =>
    match row.head? with
    | none => none
    | some fv0 =>
        if fv0.datetime < startOfDay start then none else some fv0.datetime)

lemma pvRecordAt_mergeRow_not_kept (start : Int)
    (recs : List PVForecastAkkudoktorDataRecord)
    (row : List AkkudoktorForecastValue) (t : Int)
    (ht : ∀ fv0, row.head? = some fv0 → ¬ fv0.datetime < startOfDay start →
      fv0.datetime ≠ t) :
    pvRecordAt (mergeRow start recs row) t = pvRecordAt recs t := by
  unfold mergeRow
  cases hh : row.head? with
  | none => rfl
  | some fv0 =>
      dsimp only
      by_cases hskip : fv0.datetime < startOfDay start
      · rw [if_pos hskip]
      · rw [if_neg hskip]
        exact pvRecordAt_updatePVValue_other recs fv0.datetime t _ _ _ _
          (fun hc => ht fv0 hh hskip hc.symm)

lemma pvRecordAt_mergeRows_not_kept (start : Int)
    (rows : List (List AkkudoktorForecastValue)) :
    ∀ (recs : List PVForecastAkkudoktorDataRecord) (t : Int),
      t ∉ keptTimes start rows →
      pvRecordAt (mergeRows start recs rows) t = pvRecordAt recs t := by
  induction rows with
  | nil => intro recs t _; rfl
  | cons row rest ih =>
      intro recs t hnot
      have hsplit : mergeRows start recs (row :: rest)
          = mergeRows start (mergeRow start recs row) rest := rfl
      have hrest : t ∉ keptTimes start rest := by
        intro hc
        apply hnot
        unfold keptTimes at hc ⊢
        rcases List.mem_filterMap.mp hc with ⟨a, ha, hfa⟩
        exact List.mem_filterMap.mpr ⟨a, List.mem_cons_of_mem _ ha, hfa⟩
      rw [hsplit, ih (mergeRow start recs row) t hrest]
      apply pvRecordAt_mergeRow_not_kept
      intro fv0 hh hskip hc
      apply hnot
      unfold keptTimes
      refine List.mem_filterMap.mpr ⟨row, by simp, ?_⟩
      rw [hh]
      dsimp only
      rw [if_neg hskip, hc]

lemma mergeRow_kept (start : Int) (recs : List PVForecastAkkudoktorDataRecord)
    (row : List AkkudoktorForecastValue) (fv0 : AkkudoktorForecastValue)
    (hh : row.head? = some fv0) (hkeep : ¬ fv0.datetime < startOfDay start) :
    mergeRow start recs row
      = updatePVValue recs fv0.datetime
          ((row.map (fun v => v.dcPower)).sum) ((row.map (fun v => v.power)).sum)
          fv0.windspeed_10m fv0.temperature := by
  unfold mergeRow
  rw [hh]
  dsimp only
  rw [if_neg hkeep]

lemma keptTimes_append_kept (start : Int)
    (l₁ l₂ : List (List AkkudoktorForecastValue))
    (row : List AkkudoktorForecastValue) (fv0 : AkkudoktorForecastValue)
    (hh : row.head? = some fv0) (hkeep : ¬ fv0.datetime < startOfDay start) :
    keptTimes start (l₁ ++ row :: l₂)
      = keptTimes start l₁ ++ fv0.datetime :: keptTimes start l₂ := by
  unfold keptTimes
  rw [List.filterMap_append, List.filterMap_cons, hh]
  dsimp only
  rw [if_neg hkeep]

/-- Claim C7: power fields sum across the per-plane sub-sources.  For every
row of the zipped multi-plane payload that the merge loop keeps (instant on or
after the start of the day of `start_datetime`), as long as the kept rows
carry distinct instants — the source's stated assumption of chronologically
ascending, aligned plane lists — the record stored at that row's instant holds
`pvforecast_dc_power` equal to the sum of the planes' `dcPower` values and
`pvforecast_ac_power` equal to the sum of the planes' `power` values. -/
theorem C7_power_sums (start : Int) (recs : List PVForecastAkkudoktorDataRecord)
    (payload : AkkudoktorForecast) (row : List AkkudoktorForecastValue)
    (fv0 : AkkudoktorForecastValue)
    (hrow : row ∈ zipStar payload.values) (hh : row.head? = some fv0)
    (hkeep : startOfDay start ≤ fv0.datetime)
    (hnd : (keptTimes start (zipStar payload.values)).Nodup) :
    ((pvRecordAt (mergeRows start recs (zipStar payload.values)) fv0.datetime).bind
      (fun r => r.pvforecast_dc_power)) = some ((row.map (fun v => v.dcPower)).sum) ∧
    ((pvRecordAt (mergeRows start recs (zipStar payload.values)) fv0.datetime).bind
      (fun r => r.pvforecast_ac_power)) = some ((row.map (fun v => v.power)).sum) := by
  have hkeep' : ¬ fv0.datetime < startOfDay start := not_lt.mpr hkeep
  rcases List.append_of_mem hrow with ⟨l₁, l₂, hsplit⟩
  rw [hsplit] at hnd ⊢
  have hfold : mergeRows start recs (l₁ ++ row :: l₂)
      = mergeRows start (mergeRow start (mergeRows start recs l₁) row) l₂ := by
    simp [mergeRows, List.foldl_append]
  have hnotin : fv0.datetime ∉ keptTimes start l₂ := by
    rw [keptTimes_append_kept start l₁ l₂ row fv0 hh hkeep'] at hnd
    exact (List.nodup_cons.mp (hnd.of_append_right)).1
  obtain ⟨r, hr, _, hrdc, hrac⟩ :=
    pvRecordAt_updatePVValue_self (mergeRows start recs l₁) fv0.datetime
      ((row.map (fun v => v.dcPower)).sum) ((row.map (fun v => v.power)).sum)
      fv0.windspeed_10m fv0.temperature
  rw [hfold, pvRecordAt_mergeRows_not_kept start l₂ _ _ hnotin,
    mergeRow_kept start _ row fv0 hh hkeep', hr]
  exact ⟨by simp [hrdc], by simp [hrac]⟩

/-- A forecast value of the first plane at epoch second 100000. -/
def exV1 : AkkudoktorForecastValue :=
  ⟨100000, 100, 90, 0, 0, none, none, none⟩

/-- A forecast value of the second plane at the same instant. -/
def exV2 : AkkudoktorForecastValue :=
  ⟨100000, 50, 45, 0, 0, none, none, none⟩

/-- Witness for C7: two planes with one aligned entry each; the stored DC and
AC powers are the per-plane sums 150 and 135. -/
theorem C7_power_sums_witness :
    ((pvRecordAt (mergeRows 50000 [] (zipStar [[exV1], [exV2]])) 100000).bind
      (fun r => r.pvforecast_dc_power)) = some 150 ∧
    ((pvRecordAt (mergeRows 50000 [] (zipStar [[exV1], [exV2]])) 100000).bind
      (fun r => r.pvforecast_ac_power)) = some 135 := by
  have h := C7_power_sums 50000 [] ⟨exMeta, [[exV1], [exV2]]⟩ [exV1, exV2] exV1
    (by decide) (by decide) (by decide) (by decide)
  simp only [exV1, exV2] at h ⊢
  norm_num at h
  exact h

lemma mem_updatePVValue_date (recs : List PVForecastAkkudoktorDataRecord)
    (t : Int) (dc ac : ℚ) (wind temp : Option ℚ) :
    ∀ r ∈ updatePVValue recs t dc ac wind temp,
      r.date_time ∈ recs.map (fun x => x.date_time) ∨ r.date_time = t := by
  intro r hr
  unfold updatePVValue at hr
  by_cases hany : (recs.any (fun x => x.date_time = t)) = true
  · rw [if_pos hany] at hr
    rcases List.mem_map.mp hr with ⟨r0, hr0, hr0eq⟩
    left
    refine List.mem_map.mpr ⟨r0, hr0, ?_⟩
    rw [← hr0eq]
    by_cases h0 : r0.date_time = t <;> simp [h0]
  · rw [if_neg hany] at hr
    rcases List.mem_append.mp hr with h | h
    · exact Or.inl (List.mem_map.mpr ⟨r, h, rfl⟩)
    · right
      simp only [List.mem_singleton] at h
      rw [h]

lemma mem_mergeRow_date (start : Int) (recs : List PVForecastAkkudoktorDataRecord)
    (row : List AkkudoktorForecastValue) :
    ∀ r ∈ mergeRow start recs row,
      r.date_time ∈ recs.map (fun x => x.date_time)
        ∨ startOfDay start ≤ r.date_time := by
  intro r hr
  unfold mergeRow at hr
  cases hh : row.head? with
  | none =>
      rw [hh] at hr
      exact Or.inl (List.mem_map.mpr ⟨r, hr, rfl⟩)
  | some fv0 =>
      rw [hh] at hr
      dsimp only at hr
      by_cases hskip : fv0.datetime < startOfDay start
      · rw [if_pos hskip] at hr
        exact Or.inl (List.mem_map.mpr ⟨r, hr, rfl⟩)
      · rw [if_neg hskip] at hr
        rcases mem_updatePVValue_date recs fv0.datetime _ _ _ _ r hr with h | h
        · exact Or.inl h
        · exact Or.inr (by rw [h]; omega)

lemma mem_mergeRows_date (start : Int)
    (rows : List (List AkkudoktorForecastValue)) :
    ∀ (recs : List PVForecastAkkudoktorDataRecord) (r : PVForecastAkkudoktorDataRecord),
      r ∈ mergeRows start recs rows →
      r.date_time ∈ recs.map (fun x => x.date_time)
        ∨ startOfDay start ≤ r.date_time := by
  induction rows with
  | nil => intro recs r hr; exact Or.inl (List.mem_map.mpr ⟨r, hr, rfl⟩)
  | cons row rest ih =>
      intro recs r hr
      have hr' : r ∈ mergeRows start (mergeRow start recs row) rest := hr
      rcases ih (mergeRow start recs row) r hr' with h | h
      · rcases List.mem_map.mp h with ⟨r0, hr0, hr0eq⟩
        rcases mem_mergeRow_date start recs row r0 hr0 with h2 | h2
        · exact Or.inl (hr0eq ▸ h2)
        · exact Or.inr (hr0eq ▸ h2)
      · exact Or.inr h

lemma _update_data_ok_eq (cfg : PVConfig) (start : Int)
    (recs : List PVForecastAkkudoktorDataRecord) (payload : AkkudoktorForecast)
    (recs' : List PVForecastAkkudoktorDataRecord)
    (h : _update_data cfg start recs payload = .ok recs') :
    recs' = mergeRows start recs (zipStar payload.values) := by
  unfold _update_data at h
  by_cases h1 : cfg.planes = 0
  · rw [if_pos h1] at h; exact absurd h (by simp)
  · rw [if_neg h1] at h
    by_cases h2 : cfg.timezone ≠ payload.meta.timezone
    · rw [if_pos h2] at h; exact absurd h (by simp)
    · rw [if_neg h2] at h
      cases hv : payload.values with
      | nil => rw [hv] at h; exact absurd h (by simp)
      | cons v₀ vs =>
          rw [hv] at h
          dsimp only at h
          by_cases h3 : v₀.length < cfg.prediction_hours
          · rw [if_pos h3] at h; exact absurd h (by simp)
          · rw [if_neg h3] at h
            by_cases h4 : (mergeRows start recs (zipStar (v₀ :: vs))).length
                < cfg.prediction_hours
            · rw [if_pos h4] at h; exact absurd h (by simp)
            · rw [if_neg h4] at h
              injection h with h5
              exact h5.symm

/-- Claim C8: whenever `_update_data` succeeds, every record in the resulting
sequence either keeps an instant the sequence already held before the call or
lies on or after the start of the day of `start_datetime` — forecast entries
earlier than that instant are skipped and never inserted. -/
theorem C8_merge_skips_old (cfg : PVConfig) (start : Int)
    (recs : List PVForecastAkkudoktorDataRecord) (payload : AkkudoktorForecast)
    (recs' : List PVForecastAkkudoktorDataRecord)
    (h : _update_data cfg start recs payload = .ok recs') :
    ∀ r ∈ recs', r.date_time ∈ recs.map (fun x => x.date_time)
      ∨ startOfDay start ≤ r.date_time := by
  intro r hr
  rw [_update_data_ok_eq cfg start recs payload recs' h] at hr
  exact mem_mergeRows_date start (zipStar payload.values) recs r hr

/-- Witness for C8: a successful single-plane update from an empty sequence;
the merged record's instant lies after the start of the day of
`start_datetime = 50000`. -/
theorem C8_merge_skips_old_witness :
    ((⟨100000, some 100, some 90, none, none, none⟩ :
        PVForecastAkkudoktorDataRecord).date_time
      ∈ ([] : List PVForecastAkkudoktorDataRecord).map (fun x => x.date_time))
    ∨ startOfDay 50000
      ≤ (⟨100000, some 100, some 90, none, none, none⟩ :
          PVForecastAkkudoktorDataRecord).date_time := by
  have hlist : mergeRows 50000 [] (zipStar [[exV1]])
      = [⟨100000, some 100, some 90, none, none, none⟩] := by
    simp [mergeRows, zipStar, zipStarGo, mergeRow, updatePVValue, startOfDay, exV1]
  have h : _update_data ⟨1, "Europe/Berlin", 1⟩ 50000 [] ⟨exMeta, [[exV1]]⟩
      = .ok [⟨100000, some 100, some 90, none, none, none⟩] := by
    rw [← hlist]
    rfl
  exact C8_merge_skips_old ⟨1, "Europe/Berlin", 1⟩ 50000 [] ⟨exMeta, [[exV1]]⟩
    [⟨100000, some 100, some 90, none, none, none⟩] h _
    (List.mem_singleton_self _)

/-- Claim C9: the computed field `pvforecastakkudoktor_ac_power_any` is a pure
function of the other fields on the same record: it equals the measured AC
power when one is present, otherwise the forecasted AC power; and it depends
on nothing but those two fields (records agreeing on them agree on the
computed field, whatever their other fields hold). -/
theorem C9_ac_power_any_computed :
    (∀ (r : PVForecastAkkudoktorDataRecord) (m : ℚ),
      r.pvforecastakkudoktor_ac_power_measured = some m →
      pvforecastakkudoktor_ac_power_any r = some m) ∧
    (∀ r : PVForecastAkkudoktorDataRecord,
      r.pvforecastakkudoktor_ac_power_measured = none →
      pvforecastakkudoktor_ac_power_any r = r.pvforecast_ac_power) ∧
    (∀ r r' : PVForecastAkkudoktorDataRecord,
      r.pvforecastakkudoktor_ac_power_measured
        = r'.pvforecastakkudoktor_ac_power_measured →
      r.pvforecast_ac_power = r'.pvforecast_ac_power →
      pvforecastakkudoktor_ac_power_any r = pvforecastakkudoktor_ac_power_any r') := by
  refine ⟨?_, ?_, ?_⟩
  · intro r m hm
    unfold pvforecastakkudoktor_ac_power_any
    rw [if_pos (by simp [hm])]
    exact hm
  · intro r hm
    unfold pvforecastakkudoktor_ac_power_any
    rw [if_neg (by simp [hm])]
  · intro r r' hmeas hac
    unfold pvforecastakkudoktor_ac_power_any
    rw [hmeas, hac]

/-- Witness for C9: a record with a measurement reports it, one without falls
back to the forecast, and a record differing only in unrelated fields computes
the same value. -/
theorem C9_ac_power_any_computed_witness :
    pvforecastakkudoktor_ac_power_any ⟨0, some 5000, some 4500, some 1000, none, none⟩
      = some 1000 ∧
    pvforecastakkudoktor_ac_power_any ⟨0, some 5000, some 4500, none, none, none⟩
      = some 4500 ∧
    pvforecastakkudoktor_ac_power_any ⟨0, some 5000, some 4500, none, none, none⟩
      = pvforecastakkudoktor_ac_power_any ⟨7, none, some 4500, none, some 12, some 3⟩ := by
  refine ⟨?_, ?_, ?_⟩
  · exact C9_ac_power_any_computed.1 ⟨0, some 5000, some 4500, some 1000, none, none⟩
      1000 rfl
  · exact C9_ac_power_any_computed.2.1 ⟨0, some 5000, some 4500, none, none, none⟩ rfl
  · exact C9_ac_power_any_computed.2.2 ⟨0, some 5000, some 4500, none, none, none⟩
      ⟨7, none, some 4500, none, some 12, some 3⟩ rfl rfl

lemma foldl_validationErrorMsg (es : List PydanticErrorEntry) :
    ∀ s : String,
      es.foldl (fun acc e => acc ++ formatPydanticError e) s
        = s ++ validationErrorMsg es := by
  induction es with
  | nil => intro s; simp [validationErrorMsg]
  | cons e rest ih =>
      intro s
      have h1 : validationErrorMsg (e :: rest)
          = formatPydanticError e ++ validationErrorMsg rest := by
        show List.foldl _ ("" ++ formatPydanticError e) rest = _
        rw [ih ("" ++ formatPydanticError e), String.empty_append]
      rw [h1]
      show List.foldl _ (s ++ formatPydanticError e) rest = _
      rw [ih (s ++ formatPydanticError e), String.append_assoc]

lemma validationErrorMsg_cons (e : PydanticErrorEntry)
    (rest : List PydanticErrorEntry) :
    validationErrorMsg (e :: rest)
      = formatPydanticError e ++ validationErrorMsg rest := by
  show List.foldl _ ("" ++ formatPydanticError e) rest = _
  rw [foldl_validationErrorMsg rest ("" ++ formatPydanticError e), String.empty_append]

lemma formatPydanticError_infix_of_mem (es : List PydanticErrorEntry)
    (e : PydanticErrorEntry) (he : e ∈ es) :
    (formatPydanticError e).data <:+: (validationErrorMsg es).data := by
  induction es with
  | nil => simp at he
  | cons e0 rest ih =>
      rw [validationErrorMsg_cons, String.data_append]
      rcases List.mem_cons.mp he with h | h
      · subst h
        exact ⟨[], (validationErrorMsg rest).data, by simp⟩
      · exact (ih h).trans ⟨(formatPydanticError e0).data, [], by simp⟩

/-- Claim C5 (amended): a structurally invalid external payload makes the
update path fail immediately — before any normalization or merge, whatever the
sequence holds — with a diagnostic that enumerates, for every offending field,
its location path, its error message and its error type.  (The received value
is not part of the diagnostic; see the counterexample.) -/
theorem C5_validation_diagnostic :
    (∀ (es : List PydanticErrorEntry) (e : PydanticErrorEntry), e ∈ es →
      (formatPydanticError e).data <:+: (validationErrorMsg es).data) ∧
    (∀ (cfg : PVConfig) (start : Int)
      (recs : List PVForecastAkkudoktorDataRecord)
      (es : List PydanticErrorEntry), cfg.planes ≠ 0 →
      update_data_flow cfg start recs (.error es)
        = .error (.validationFailed (validationErrorMsg es))) := by
  constructor
  · intro es e he
    exact formatPydanticError_infix_of_mem es e he
  · intro cfg start recs es h1
    unfold update_data_flow _validate_data
    rw [if_neg h1]

/-- A concrete pydantic error entry: `meta -> lat` received the unparsable
string `xyzzy`. -/
def exInvalidEntry : PydanticErrorEntry :=
  ⟨["meta", "lat"], "Input should be a valid number", "float_type", "xyzzy"⟩

set_option maxRecDepth 8192 in
/-- Counterexample to C5 as stated: for the structurally invalid payload whose
single offending field `meta -> lat` received the value `xyzzy`, the raised
diagnostic does *not* contain the received value — `_validate_data` formats
only the field path, the message and the error type. -/
theorem C5_counterexample :
    _validate_data (.error [exInvalidEntry])
      = .error (validationErrorMsg [exInvalidEntry]) ∧
    ¬ ((exInvalidEntry.input).data <:+: (validationErrorMsg [exInvalidEntry]).data) := by
  exact ⟨rfl, by decide⟩

/-- Witness for C5 at concrete inputs: a two-entry diagnostic contains both
blocks, and the flow rejects the invalid payload before touching a non-empty
sequence. -/
theorem C5_validation_diagnostic_witness :
    (formatPydanticError ⟨["meta", "timezone"], "Field required", "missing", ""⟩).data
      <:+: (validationErrorMsg
        [exInvalidEntry,
         ⟨["meta", "timezone"], "Field required", "missing", ""⟩]).data ∧
    update_data_flow ⟨1, "Europe/Berlin", 48⟩ 0
      [⟨0, some 1, some 1, none, none, none⟩] (.error [exInvalidEntry])
      = .error (.validationFailed (validationErrorMsg [exInvalidEntry])) := by
  constructor
  · exact C5_validation_diagnostic.1
      [exInvalidEntry, ⟨["meta", "timezone"], "Field required", "missing", ""⟩]
      ⟨["meta", "timezone"], "Field required", "missing", ""⟩ (by simp)
  · exact C5_validation_diagnostic.2 ⟨1, "Europe/Berlin", 48⟩ 0
      [⟨0, some 1, some 1, none, none, none⟩] [exInvalidEntry] (by decide)

/-! ## Wechselrichter (from `devices/inverter.py`)

`energie_verarbeiten` translated clause by clause; Python floats are
rationals.  The connected battery (`PVAkku`, whose module is not among the
inspected sources) is abstracted by its two energy functions, each returning
the delivered/charged energy and the losses; the claims hold for every battery
behaviour. -/

/-- The battery interface `energie_verarbeiten` uses: discharge, charge, and
the maximal charging power field the source reads (without using it). -/
structure PVAkku where
  max_ladeleistung_w : ℚ
  energie_abgeben : ℚ → Nat → ℚ × ℚ
  energie_laden : ℚ → Nat → ℚ × ℚ

/-- The inverter: maximum handled power, the connected battery, and the
self-consumption quota per hour (`[0.95] * 48` in the source). -/
structure Wechselrichter where
  max_leistung_wh : ℚ
  akku : PVAkku
  evq : List ℚ

/-- `Wechselrichter.energie_verarbeiten(erzeugung, verbrauch, hour)` (source
lines 37–106).  Returns `(netzeinspeisung, netzbezug, verluste,
eigenverbrauch)`: grid feed-in, grid draw, losses, self-consumption.
`self.evq[hour]` is modelled total as `evq.getD hour 0`; the source indexes a
48-entry list. -/
def energie_verarbeiten (w : Wechselrichter) (erzeugung verbrauch : ℚ)
    (hour : Nat) : ℚ × ℚ × ℚ × ℚ :=
  if erzeugung ≥ verbrauch then
    if verbrauch > w.max_leistung_wh then
      let verluste := erzeugung - w.max_leistung_wh
      let restleistung_nach_verbrauch := w.max_leistung_wh - verbrauch
      let netzbezug := -restleistung_nach_verbrauch
      let eigenverbrauch := w.max_leistung_wh
      (0, netzbezug, verluste, eigenverbrauch)
    else
      let evqh := w.evq.getD hour 0
      let restleistung_nach_verbrauch := (erzeugung - verbrauch) * evqh
      let restlast_evq := (erzeugung - verbrauch) * (1 - evqh)
      let ab := w.akku.energie_abgeben restlast_evq hour
      let aus_akku := ab.1
      let akku_entladeverluste := ab.2
      let restlast_evq := restlast_evq - aus_akku
      let verluste := akku_entladeverluste
      let netzbezug := if restlast_evq > 0 then restlast_evq else 0
      let fed :=
        if restleistung_nach_verbrauch > 0 then
          let ld := w.akku.energie_laden restleistung_nach_verbrauch hour
          let geladene_energie := ld.1
          let verluste_laden_akku := ld.2
          let rest_ueberschuss :=
            restleistung_nach_verbrauch - (geladene_energie + verluste_laden_akku)
          if rest_ueberschuss > w.max_leistung_wh - verbrauch then
            (w.max_leistung_wh - verbrauch,
              verluste + (rest_ueberschuss - (w.max_leistung_wh - verbrauch))
                + verluste_laden_akku)
          else
            (rest_ueberschuss, verluste + verluste_laden_akku)
        else
          ((0 : ℚ), verluste)
      let netzeinspeisung := fed.1
      let verluste := fed.2
      let eigenverbrauch := verbrauch + aus_akku
      (netzeinspeisung, netzbezug, verluste, eigenverbrauch)
  else
    let benoetigte_energie := verbrauch - erzeugung
    let rest_ac_leistung := max (w.max_leistung_wh - erzeugung) 0
    let ab :=
      if benoetigte_energie < rest_ac_leistung then
        w.akku.energie_abgeben benoetigte_energie hour
      else
        w.akku.energie_abgeben rest_ac_leistung hour
    let aus_akku := ab.1
    let akku_entladeverluste := ab.2
    let verluste := akku_entladeverluste
    let netzbezug := benoetigte_energie - aus_akku
    let eigenverbrauch := erzeugung + aus_akku
    (0, netzbezug, verluste, eigenverbrauch)

/-- Claim C10: in a deficit hour (`erzeugung < verbrauch`), the returned grid
feed-in is 0 and self-consumption plus grid draw exactly accounts for the
consumption: `eigenverbrauch + netzbezug = verbrauch`, whatever the battery
does. -/
theorem C10_deficit_balance (w : Wechselrichter) (erzeugung verbrauch : ℚ)
    (hour : Nat) (h : erzeugung < verbrauch) :
    (energie_verarbeiten w erzeugung verbrauch hour).1 = 0 ∧
    (energie_verarbeiten w erzeugung verbrauch hour).2.2.2
      + (energie_verarbeiten w erzeugung verbrauch hour).2.1 = verbrauch := by
  unfold energie_verarbeiten
  rw [if_neg (not_le.mpr h)]
  refine ⟨rfl, ?_⟩
  show (erzeugung + _) + ((verbrauch - erzeugung) - _) = verbrauch
  ring

/-- Witness for C10: a 10 kW inverter with a half-efficient battery, 100 Wh
generated against 500 Wh consumed. -/
theorem C10_deficit_balance_witness :
    (energie_verarbeiten
      ⟨10000, ⟨5000, fun e _ => (e / 2, e / 10), fun e _ => (e / 2, e / 20)⟩,
        List.replicate 48 (95 / 100)⟩ 100 500 0).1 = 0 ∧
    (energie_verarbeiten
      ⟨10000, ⟨5000, fun e _ => (e / 2, e / 10), fun e _ => (e / 2, e / 20)⟩,
        List.replicate 48 (95 / 100)⟩ 100 500 0).2.2.2
      + (energie_verarbeiten
        ⟨10000, ⟨5000, fun e _ => (e / 2, e / 10), fun e _ => (e / 2, e / 20)⟩,
          List.replicate 48 (95 / 100)⟩ 100 500 0).2.1 = 500 := by
  exact C10_deficit_balance
    ⟨10000, ⟨5000, fun e _ => (e / 2, e / 10), fun e _ => (e / 2, e / 20)⟩,
      List.replicate 48 (95 / 100)⟩ 100 500 0 (by norm_num)

end EOS
